import Mathlib

/-!
# Message codec of the rendezvous protocol (`proto.go`)

A shallow embedding of `proto.go` of go-waku-rendezvous: the request and
response builders, the peer-record conversion `pbToPeerRecord`, and the error
type.  Go functions returning `(value, error)` are embedded as functions
returning a pair whose second component is `none` for a nil error; nil
pointers and nil slices are `none`.

The protobuf, crypto and record packages that `proto.go` imports are outside
the file.  The builders take them as a parameter (`Library`); the statements
about sealing and verification are made against `specLibrary`, a rendering of
the record package built over abstract signing and codec primitives.
-/

namespace rendezvous

/-! ## Machine integers and bytes -/

/-- Byte strings (`[]byte`); a nil slice and an empty slice are both `[]`. -/
abbrev Bytes := List (Fin 256)

/-- Go `int64(x)`: the value of `x` wrapped into the signed 64-bit range. -/
def int64 (x : Int) : Int := (x + 2 ^ 63) % 2 ^ 64 - 2 ^ 63

/-- Go `uint64(x)`: the value of `x` wrapped into the unsigned 64-bit range. -/
def uint64 (x : Int) : Nat := (x % 2 ^ 64).toNat

/-- Values of the Go type `int`, which is at most 64 bits wide. -/
def IsInt (x : Int) : Prop := -2 ^ 63 ≤ x ∧ x < 2 ^ 63

instance (x : Int) : Decidable (IsInt x) := by
  unfold IsInt; exact inferInstance

/-- The constant `DefaultTTL = 2 * 3600 // 2hr`. -/
def DefaultTTL : Int := 2 * 3600

/-! ## Types declared by the imported packages -/

/-- Private keys (`libp2pCrypto.PrivKey`), as raw key material. -/
abbrev PrivKey := Bytes

/-- Public keys (`crypto.PubKey`), as raw key material. -/
abbrev PubKey := Bytes

/-- The Go struct `peer.AddrInfo`; the zero value has an empty ID and no addresses. -/
structure peer.AddrInfo where
  ID : Bytes := []
  Addrs : List Bytes := []
deriving DecidableEq, Repr

/-- The Go struct `peer.PeerRecord`. -/
structure peer.PeerRecord where
  PeerID : Bytes
  Addrs : List Bytes
  Seq : Nat
deriving DecidableEq, Repr

/-- Values of the interface `record.Record`: a `*peer.PeerRecord` or a record
of another registered type (identified by its payload type). -/
inductive record.Record where
  | peerRecord (r : peer.PeerRecord)
  | other (payloadType : Bytes)
deriving DecidableEq, Repr

/-- The wire envelope `record_pb.Envelope`; the zero value has every field empty. -/
structure record_pb.Envelope where
  PublicKey : Bytes := []
  PayloadType : Bytes := []
  Payload : Bytes := []
  Signature : Bytes := []
deriving DecidableEq, Repr

/-- The in-memory envelope `record.Envelope`. -/
structure record.Envelope where
  PublicKey : PubKey
  PayloadType : Bytes
  RawPayload : Bytes
  signature : Bytes
deriving DecidableEq, Repr

/-- Failures reported by the imported packages, named after the error taxonomy
of the specification. -/
inductive LibError where
  | MalformedEnvelope (detail : String)
  | SignatureInvalid
  | SigningError (detail : String)
  | SerializationError (detail : String)
deriving DecidableEq, Repr

/-- Go `error` values seen by `proto.go`: `new text` is the value of
`errors.New(text)` created in the file itself, `lib e` is an error value that a
library call returned and that is handed on as it is. -/
inductive Error where
  | new (text : String)
  | lib (e : LibError)
deriving DecidableEq, Repr

/-- The enum `pb.Message_MessageType`; `REGISTER` is its zero value. -/
inductive pb.Message_MessageType where
  | REGISTER
  | REGISTER_RESPONSE
  | UNREGISTER
  | DISCOVER
  | DISCOVER_RESPONSE
deriving DecidableEq, Repr

/-- The enum `pb.Message_ResponseStatus`, an integer status code. -/
abbrev pb.Message_ResponseStatus := Int

/-- The status code `pb.Message_OK`. -/
def pb.Message_OK : pb.Message_ResponseStatus := 0

/-- Value of the `Peer` field of `pb.Message_Register`.  `proto.go` assigns it
the serialized envelope bytes in `newRegisterMessage` and the parsed wire
envelope in `newDiscoverResponse`; both shapes are kept apart here. -/
inductive pb.PeerField where
  | bytes (b : Bytes)
  | envelope (e : record_pb.Envelope)
deriving DecidableEq, Repr

/-- The Go struct `pb.Message_Register`; the defaults are the zero value. -/
structure pb.Message_Register where
  Ns : String := ""
  Peer : Option pb.PeerField := none
  Ttl : Int := 0
deriving DecidableEq, Repr

/-- The Go struct `pb.Message_Discover`; the defaults are the zero value. -/
structure pb.Message_Discover where
  Ns : String := ""
  Limit : Int := 0
deriving DecidableEq, Repr

/-- The Go struct `pb.Message_RegisterResponse`; the defaults are the zero value. -/
structure pb.Message_RegisterResponse where
  Status : pb.Message_ResponseStatus := 0
  StatusText : String := ""
  Ttl : Int := 0
deriving DecidableEq, Repr

/-- The Go struct `pb.Message_DiscoverResponse`; `Registrations` is a slice of
pointers, `none` being the nil slice and a `none` entry a nil pointer. -/
structure pb.Message_DiscoverResponse where
  Registrations : Option (List (Option pb.Message_Register)) := none
  Status : pb.Message_ResponseStatus := 0
  StatusText : String := ""
deriving DecidableEq, Repr

/-- The Go struct `pb.Message`; the four payloads are pointers, nil in the zero value. -/
structure pb.Message where
  Type_ : pb.Message_MessageType := .REGISTER
  Register : Option pb.Message_Register := none
  Discover : Option pb.Message_Discover := none
  RegisterResponse : Option pb.Message_RegisterResponse := none
  DiscoverResponse : Option pb.Message_DiscoverResponse := none
deriving DecidableEq, Repr

/-- The stored registration `RegistrationRecord`, with the fields `proto.go`
reads; `Ttl` is a Go `int`. -/
structure RegistrationRecord where
  Ns : String
  PeerEnvelope : Bytes
  Ttl : Int
deriving DecidableEq, Repr

/-! ## The library calls made by `proto.go` -/

/-- The functions of the imported packages that `proto.go` calls, taken as a
parameter: `record.Seal`, `(*record.Envelope).Marshal`, `proto.Marshal` on a
wire envelope, `(*record_pb.Envelope).Unmarshal`, `record.ConsumeEnvelope`, and
the constant `peer.PeerRecordEnvelopeDomain`. -/
structure Library where
  PeerRecordEnvelopeDomain : String
  Seal : peer.PeerRecord → PrivKey → Except LibError record.Envelope
  Marshal : record.Envelope → Except LibError Bytes
  protoMarshal : record_pb.Envelope → Except LibError Bytes
  Unmarshal : Bytes → Except LibError record_pb.Envelope
  ConsumeEnvelope : Bytes → String → Except LibError (record.Envelope × record.Record)

/-! ## `proto.go` -/

/-- The Go struct `RendezvousError`. -/
structure RendezvousError where
  Status : pb.Message_ResponseStatus
  Text : String
deriving DecidableEq, Repr

/-- The scan of a format by Go `fmt.Sprintf` when every operand is a string and
no flags or widths occur: `%s` prints the next operand, `%%` a percent sign,
another verb or a verb without operand prints the `%!` diagnostics of the fmt
package, and operands left over are listed after `%!(EXTRA `. -/
def Sprintf.go : List Char → List String → List Char
  | [], [] => []
  | [], a :: args =>
    "%!(EXTRA ".data ++ (", ".intercalate ((a :: args).map (fun x => "string=" ++ x))).data ++ [')']
  | ['%'], args => "%!(NOVERB)".data ++ Sprintf.go [] args
  | '%' :: '%' :: rest, args => '%' :: Sprintf.go rest args
  | '%' :: 's' :: rest, a :: args => a.data ++ Sprintf.go rest args
  | '%' :: c :: rest, [] => "%!".data ++ c :: "(MISSING)".data ++ Sprintf.go rest []
  | '%' :: c :: rest, a :: args =>
    "%!".data ++ c :: "(string=".data ++ a.data ++ ')' :: Sprintf.go rest args
  | c :: rest, args => c :: Sprintf.go rest args

/-- Go `fmt.Sprintf` on string operands. -/
def Sprintf (format : String) (args : List String) : String :=
  ⟨Sprintf.go format.data args⟩

/-- The method `RendezvousError.Error`; `statusName` is the `String` method of
`pb.Message_ResponseStatus`. -/
def RendezvousError.Error (statusName : pb.Message_ResponseStatus → String)
    (e : RendezvousError) : String :=
  Sprintf "Rendezvous error: %s (%s)" [e.Text, statusName e.Status]

/-- The function `newRegisterMessage`; `now` is the value of `time.Now().Unix()`. -/
def newRegisterMessage (R : Library) (now : Int) (privKey : PrivKey) (ns : String)
    (pi : peer.AddrInfo) (ttl : Int) : Option pb.Message × Option Error :=
  let msg : pb.Message := {}
  let msg := { msg with Type_ := .REGISTER }
  let reg : pb.Message_Register := {}
  let reg := if ns ≠ "" then { reg with Ns := ns } else reg
  let reg := if ttl > 0 then { reg with Ttl := int64 ttl } else reg
  let peerInfo : peer.PeerRecord :=
    { PeerID := pi.ID, Addrs := pi.Addrs, Seq := uint64 now }
  match R.Seal peerInfo privKey with
  | .error err => (none, some (.lib err))
  | .ok envelope =>
    match R.Marshal envelope with
    | .error err => (none, some (.lib err))
    | .ok envPayload =>
      let reg := { reg with Peer := some (.bytes envPayload) }
      (some { msg with Register := some reg }, none)

/-- The function `newDiscoverMessage`. -/
def newDiscoverMessage (ns : String) (limit : Int) : pb.Message :=
  let msg : pb.Message := {}
  let msg := { msg with Type_ := .DISCOVER }
  let disc : pb.Message_Discover := {}
  let disc := if ns ≠ "" then { disc with Ns := ns } else disc
  let disc := if limit > 0 then { disc with Limit := int64 limit } else disc
  { msg with Discover := some disc }

/-- The function `pbToPeerRecord`; a nil `pbEnvelope` is `none`. -/
def pbToPeerRecord (R : Library) (pbEnvelope : Option record_pb.Envelope) :
    peer.AddrInfo × Option Error :=
  match pbEnvelope with
  | none => ({}, some (.new "missing envelope information"))
  | some env =>
    match R.protoMarshal env with
    | .error err => ({}, some (.lib err))
    | .ok envelopeBytes =>
      match R.ConsumeEnvelope envelopeBytes R.PeerRecordEnvelopeDomain with
      | .error err => ({}, some (.lib err))
      | .ok (_, rec) =>
        match rec with
        | .peerRecord peerRec => ({ ID := peerRec.PeerID, Addrs := peerRec.Addrs }, none)
        | .other _ => ({}, some (.new "invalid peer record"))

/-- The function `newRegisterResponse`. -/
def newRegisterResponse (ttl : Int) : pb.Message_RegisterResponse :=
  let ttl64 := int64 ttl
  let r : pb.Message_RegisterResponse := {}
  let r := { r with Status := pb.Message_OK }
  { r with Ttl := ttl64 }

/-- The function `newRegisterResponseError`. -/
def newRegisterResponseError (status : pb.Message_ResponseStatus) (text : String) :
    pb.Message_RegisterResponse :=
  let r : pb.Message_RegisterResponse := {}
  let r := { r with Status := status }
  { r with StatusText := text }

/-- The `for i, reg := range regs` loop of `newDiscoverResponse`, from index `i`
on, over the records not yet visited; `rregs` is the slice being filled. -/
def newDiscoverResponse.loop (R : Library) :
    List RegistrationRecord → Nat → List (Option pb.Message_Register) →
      Except LibError (List (Option pb.Message_Register))
  | [], _, rregs => .ok rregs
  | reg :: rest, i, rregs =>
    match R.Unmarshal reg.PeerEnvelope with
    | .error err => .error err
    | .ok env =>
      let rreg : pb.Message_Register := {}
      let rreg := { rreg with Ns := reg.Ns }
      let rreg := { rreg with Peer := some (.envelope env) }
      let rreg := { rreg with Ttl := int64 reg.Ttl }
      newDiscoverResponse.loop R rest (i + 1) (rregs.set i (some rreg))

/-- The function `newDiscoverResponse`. -/
def newDiscoverResponse (R : Library) (regs : List RegistrationRecord) :
    Option pb.Message_DiscoverResponse × Option Error :=
  let r : pb.Message_DiscoverResponse := {}
  let r := { r with Status := pb.Message_OK }
  let rregs : List (Option pb.Message_Register) := List.replicate regs.length none
  match newDiscoverResponse.loop R regs 0 rregs with
  | .error err => (none, some (.lib err))
  | .ok rregs => (some { r with Registrations := some rregs }, none)

/-- The function `newDiscoverResponseError`. -/
def newDiscoverResponseError (status : pb.Message_ResponseStatus) (text : String) :
    pb.Message_DiscoverResponse :=
  let r : pb.Message_DiscoverResponse := {}
  let r := { r with Status := status }
  { r with StatusText := text }

/-! ## The record package over signing and codec primitives -/

/-- The capabilities underneath the record package: signing and verification,
the key codec, the bytes that are signed for a domain, payload type and
payload, the peer-record codec, the wire-envelope codec, and the two
peer-record constants. -/
structure Primitives where
  PeerRecordEnvelopeDomain : String
  PeerRecordEnvelopePayloadType : Bytes
  Sign : PrivKey → Bytes → Except String Bytes
  GetPublic : PrivKey → PubKey
  Verify : PubKey → Bytes → Bytes → Except String Bool
  PublicKeyToProto : PubKey → Except String Bytes
  PublicKeyFromProto : Bytes → Except String PubKey
  makeUnsigned : String → Bytes → Bytes → Bytes
  MarshalRecord : peer.PeerRecord → Except String Bytes
  unmarshalRecordPayload : Bytes → Bytes → Except String record.Record
  protoMarshal : record_pb.Envelope → Except String Bytes
  protoUnmarshal : Bytes → Except String record_pb.Envelope

/-- Modelled from the spec: `record.Seal` of the imported record package, whose
source is not part of this repository.  Section 4.1: the peer record is serialized and signed with
the private key under the fixed domain-separation string; it "fails with
SigningError if signing or serialization fails". -/
def record.Seal (P : Primitives) (rec : peer.PeerRecord) (privateKey : PrivKey) :
    Except LibError record.Envelope :=
  match P.MarshalRecord rec with
  | .error d => .error (.SigningError d)
  | .ok payload =>
    match P.Sign privateKey
        (P.makeUnsigned P.PeerRecordEnvelopeDomain P.PeerRecordEnvelopePayloadType payload) with
    | .error d => .error (.SigningError d)
    | .ok sig =>
      .ok { PublicKey := P.GetPublic privateKey,
            PayloadType := P.PeerRecordEnvelopePayloadType,
            RawPayload := payload,
            signature := sig }

/-- Modelled from the spec: `(*record.Envelope).Marshal` of the imported record
package, whose source is not part of this repository.  Section 3: the envelope carries the
serialized record, the public key and the signature; a failure to serialize is
a `SerializationError`. -/
def record.Envelope.Marshal (P : Primitives) (e : record.Envelope) : Except LibError Bytes :=
  match P.PublicKeyToProto e.PublicKey with
  | .error d => .error (.SerializationError d)
  | .ok key =>
    match P.protoMarshal
        { PublicKey := key, PayloadType := e.PayloadType,
          Payload := e.RawPayload, Signature := e.signature } with
    | .error d => .error (.SerializationError d)
    | .ok b => .ok b

/-- Modelled from the spec: `record.ConsumeEnvelope` of the imported record
package, whose source is not part of this repository.  Section 4.1: it "fails with
MalformedEnvelope if bytes do not parse as a valid envelope", "fails with
SignatureInvalid if the embedded signature does not verify against the domain
string and payload", and only then decodes the verified payload. -/
def record.ConsumeEnvelope (P : Primitives) (data : Bytes) (domain : String) :
    Except LibError (record.Envelope × record.Record) :=
  match P.protoUnmarshal data with
  | .error d => .error (.MalformedEnvelope d)
  | .ok e =>
    match P.PublicKeyFromProto e.PublicKey with
    | .error d => .error (.MalformedEnvelope d)
    | .ok key =>
      match P.Verify key (P.makeUnsigned domain e.PayloadType e.Payload) e.Signature with
      | .ok true =>
        match P.unmarshalRecordPayload e.PayloadType e.Payload with
        | .error d => .error (.MalformedEnvelope d)
        | .ok rec =>
          .ok ({ PublicKey := key, PayloadType := e.PayloadType,
                 RawPayload := e.Payload, signature := e.Signature }, rec)
      | _ => .error .SignatureInvalid

/-- The library that `proto.go` runs against, assembled from the primitives. -/
def specLibrary (P : Primitives) : Library where
  PeerRecordEnvelopeDomain := P.PeerRecordEnvelopeDomain
  Seal := record.Seal P
  Marshal := record.Envelope.Marshal P
  protoMarshal := fun e =>
    match P.protoMarshal e with
    | .error d => .error (.SerializationError d)
    | .ok b => .ok b
  Unmarshal := fun b =>
    match P.protoUnmarshal b with
    | .error d => .error (.MalformedEnvelope d)
    | .ok e => .ok e
  ConsumeEnvelope := record.ConsumeEnvelope P

/-- The embedded signature of a wire envelope verifies against its embedded
public key over the peer-record domain string and its payload. -/
def SignatureVerifies (P : Primitives) (e : record_pb.Envelope) : Prop :=
  ∃ key, P.PublicKeyFromProto e.PublicKey = .ok key ∧
    P.Verify key (P.makeUnsigned P.PeerRecordEnvelopeDomain e.PayloadType e.Payload)
      e.Signature = .ok true

/-- The wire codec reads back the envelope `e` from its serialization. -/
def Primitives.WireRoundTripAt (P : Primitives) (e : record_pb.Envelope) : Prop :=
  ∀ b, P.protoMarshal e = .ok b → P.protoUnmarshal b = .ok e

/-- The wire codec reads back every envelope from its serialization. -/
def Primitives.WireRoundTrip (P : Primitives) : Prop :=
  ∀ e, P.WireRoundTripAt e

/-- The key codec reads back the public key of `sk`. -/
def Primitives.KeyRoundTripAt (P : Primitives) (sk : PrivKey) : Prop :=
  ∀ k, P.PublicKeyToProto (P.GetPublic sk) = .ok k →
    P.PublicKeyFromProto k = .ok (P.GetPublic sk)

/-- A signature made with `sk` verifies under the public key of `sk`. -/
def Primitives.SignVerifyAt (P : Primitives) (sk : PrivKey) : Prop :=
  ∀ m s, P.Sign sk m = .ok s → P.Verify (P.GetPublic sk) m s = .ok true

/-- The record codec reads back the peer record `r` from its serialization. -/
def Primitives.RecordRoundTripAt (P : Primitives) (r : peer.PeerRecord) : Prop :=
  ∀ b, P.MarshalRecord r = .ok b →
    P.unmarshalRecordPayload P.PeerRecordEnvelopePayloadType b = .ok (.peerRecord r)

/-! ## A small concrete instance of the primitives -/

/-- Wire encoding of the sample instance: four length bytes, then the fields. -/
def sampleProtoMarshal (e : record_pb.Envelope) : Except String Bytes :=
  if h : e.PublicKey.length < 256 ∧ e.PayloadType.length < 256 ∧
      e.Payload.length < 256 ∧ e.Signature.length < 256 then
    .ok (⟨e.PublicKey.length, h.1⟩ :: ⟨e.PayloadType.length, h.2.1⟩ ::
      ⟨e.Payload.length, h.2.2.1⟩ :: ⟨e.Signature.length, h.2.2.2⟩ ::
      (e.PublicKey ++ (e.PayloadType ++ (e.Payload ++ e.Signature))))
  else .error "field too long"

/-- Wire decoding of the sample instance. -/
def sampleProtoUnmarshal : Bytes → Except String record_pb.Envelope
  | a :: b :: c :: d :: rest =>
    if rest.length = a.val + b.val + c.val + d.val then
      .ok { PublicKey := rest.take a.val,
            PayloadType := (rest.drop a.val).take b.val,
            Payload := ((rest.drop a.val).drop b.val).take c.val,
            Signature := ((rest.drop a.val).drop b.val).drop c.val }
    else .error "length mismatch"
  | _ => .error "short header"

/-- Length-prefixed encoding of an address list in the sample instance. -/
def sampleEncodeAddrs : List Bytes → Bytes
  | [] => []
  | a :: rest => Fin.ofNat a.length :: (a ++ sampleEncodeAddrs rest)

/-- Decoding of a length-prefixed address list, reading at most `fuel` addresses. -/
def sampleDecodeAddrs : Nat → Bytes → List Bytes
  | 0, _ => []
  | _, [] => []
  | fuel + 1, n :: rest => rest.take n.val :: sampleDecodeAddrs fuel (rest.drop n.val)

/-- Record encoding of the sample instance: sequence byte, identity, addresses. -/
def sampleMarshalRecord (r : peer.PeerRecord) : Except String Bytes :=
  .ok (Fin.ofNat r.Seq :: Fin.ofNat r.PeerID.length :: (r.PeerID ++ sampleEncodeAddrs r.Addrs))

/-- Record decoding of the sample instance; payload type `[3, 1]` is the peer record. -/
def sampleUnmarshalRecordPayload (payloadType : Bytes) (b : Bytes) : Except String record.Record :=
  if payloadType = [3, 1] then
    match b with
    | seq :: n :: rest =>
      .ok (.peerRecord { PeerID := rest.take n.val,
                         Addrs := sampleDecodeAddrs rest.length (rest.drop n.val),
                         Seq := seq.val })
    | _ => .error "short record"
  else .ok (.other payloadType)

/-- A sample instance of the primitives: the signature of a message is the key
followed by the message, and the public key is the key itself. -/
def samplePrimitives : Primitives where
  PeerRecordEnvelopeDomain := "libp2p-peer-record"
  PeerRecordEnvelopePayloadType := [3, 1]
  Sign := fun sk m => if sk = [] then .error "empty key" else .ok (sk ++ m)
  GetPublic := fun sk => sk
  Verify := fun pk m s => .ok (decide (s = pk ++ m))
  PublicKeyToProto := fun k => .ok k
  PublicKeyFromProto := fun b => if b = [] then .error "empty public key" else .ok b
  makeUnsigned := fun d t p => Fin.ofNat d.length :: (t ++ p)
  MarshalRecord := sampleMarshalRecord
  unmarshalRecordPayload := sampleUnmarshalRecordPayload
  protoMarshal := sampleProtoMarshal
  protoUnmarshal := sampleProtoUnmarshal

/-- A sample identity with two addresses. -/
def samplePeer : peer.AddrInfo := { ID := [18, 2, 7, 9], Addrs := [[4, 127, 0, 0, 1], [6, 35]] }

/-- A sample private key. -/
def sampleKey : PrivKey := [42, 43]

/-- An envelope over the sample primitives whose signature is not the one the
key produces for its payload. -/
def forgedEnvelope : record_pb.Envelope :=
  { PublicKey := [42, 43], PayloadType := [3, 1], Payload := [7, 1, 9], Signature := [42, 43, 0] }

/-- Record decoding that refuses a peer record with an empty PeerID, as the
peer package does when it reads an identity back (an empty ID is no multihash);
otherwise the decoding of the sample instance. -/
def strictUnmarshalRecordPayload (payloadType : Bytes) (b : Bytes) : Except String record.Record :=
  match sampleUnmarshalRecordPayload payloadType b with
  | .ok (.peerRecord r) =>
    if r.PeerID = [] then .error "multihash too short" else .ok (.peerRecord r)
  | .ok (.other t) => .ok (.other t)
  | .error d => .error d

/-- The sample primitives with the record codec that refuses an empty PeerID on
reading; writing a record is unchanged and accepts it. -/
def strictPrimitives : Primitives :=
  { samplePrimitives with unmarshalRecordPayload := strictUnmarshalRecordPayload }

/-- The wire envelope that sealing the zero AddrInfo with `sampleKey` at time 7
yields over the sample and the strict primitives. -/
def sealedZeroEnvelope : record_pb.Envelope :=
  { PublicKey := [42, 43], PayloadType := [3, 1], Payload := [7, 0],
    Signature := [42, 43, 18, 3, 1, 7, 0] }

/-- A library whose every call fails, for exercising the error paths. -/
def failingLibrary : Library where
  PeerRecordEnvelopeDomain := "libp2p-peer-record"
  Seal := fun _ _ => .error (.SigningError "no key")
  Marshal := fun _ => .error (.SerializationError "no codec")
  protoMarshal := fun _ => .error (.SerializationError "no codec")
  Unmarshal := fun _ => .error (.MalformedEnvelope "no codec")
  ConsumeEnvelope := fun _ _ => .error .SignatureInvalid

/-- The wire triple emitted by `newDiscoverResponse` for a record whose bytes parsed to `env`. -/
def wireTriple (reg : RegistrationRecord) (env : record_pb.Envelope) : pb.Message_Register :=
  { Ns := reg.Ns, Peer := some (.envelope env), Ttl := int64 reg.Ttl }

/-- The outcome of the `newDiscoverResponse` loop written as a recursion on the
records: the triples in order, or the parse error of the first record that fails. -/
def parseAll (R : Library) : List RegistrationRecord → Except LibError (List pb.Message_Register)
  | [] => .ok []
  | reg :: rest =>
    match R.Unmarshal reg.PeerEnvelope with
    | .error err => .error err
    | .ok env =>
      match parseAll R rest with
      | .error err => .error err
      | .ok out => .ok (wireTriple reg env :: out)

/-- Two stored records with well-formed envelope bytes, the first one unsigned. -/
def sampleRecords : List RegistrationRecord :=
  [{ Ns := "a", PeerEnvelope := [0, 0, 0, 0], Ttl := 10 },
   { Ns := "b", PeerEnvelope := [1, 0, 0, 0, 5], Ttl := 20 }]

/-- Three stored records of which the second and third are corrupt. -/
def corruptRecords : List RegistrationRecord :=
  [{ Ns := "a", PeerEnvelope := [0, 0, 0, 0], Ttl := 10 },
   { Ns := "b", PeerEnvelope := [1, 0, 0, 0], Ttl := 20 },
   { Ns := "c", PeerEnvelope := [9], Ttl := 30 }]

/-- The wire envelope that sealing `samplePeer` with `sampleKey` at time 7 yields
over the sample primitives. -/
def sealedEnvelope : record_pb.Envelope :=
  { PublicKey := [42, 43], PayloadType := [3, 1],
    Payload := [7, 4, 18, 2, 7, 9, 5, 4, 127, 0, 0, 1, 2, 6, 35],
    Signature := [42, 43, 18, 3, 1, 7, 4, 18, 2, 7, 9, 5, 4, 127, 0, 0, 1, 2, 6, 35] }

/-- A correctly signed envelope over the sample primitives whose payload type
is not the peer record. -/
def otherRecordEnvelope : record_pb.Envelope :=
  { PublicKey := [42, 43], PayloadType := [9], Payload := [1],
    Signature := [42, 43, 18, 9, 1] }

/-! ## Conversions -/

theorem int64_of_isInt (x : Int) (h : IsInt x) : int64 x = x := by
  unfold IsInt at h
  unfold int64
  omega

/-! ## Request builders -/

/-- C5: for every namespace and every Go int limit, newDiscoverMessage returns
(without a failure path) a DISCOVER message whose Discover payload carries the
namespace as given, hence unset exactly when it is empty, and the limit when it
is positive and 0 otherwise; ("", 0) sets neither field and ("ns1", 5) sets
both. -/
theorem newDiscoverMessage_fields (ns : String) (limit : Int) (h : IsInt limit) :
    (newDiscoverMessage ns limit).Type_ = .DISCOVER ∧
    (∃ d, (newDiscoverMessage ns limit).Discover = some d ∧
      d.Ns = ns ∧ (d.Ns = "" ↔ ns = "") ∧
      (0 < limit → d.Limit = limit) ∧ (limit ≤ 0 → d.Limit = 0)) ∧
    newDiscoverMessage "" 0 = { Type_ := .DISCOVER, Discover := some { Ns := "", Limit := 0 } } ∧
    newDiscoverMessage "ns1" 5 =
      { Type_ := .DISCOVER, Discover := some { Ns := "ns1", Limit := 5 } } := by
  refine ⟨rfl, ⟨_, rfl, ?_, ?_, ?_, ?_⟩, by decide, by decide⟩
  · by_cases hns : ns = "" <;> by_cases hl : limit > 0 <;> simp [hns, hl]
  · by_cases hns : ns = "" <;> by_cases hl : limit > 0 <;> simp [hns, hl]
  · intro hl
    by_cases hns : ns = "" <;> simp [hns, hl, int64_of_isInt limit h]
  · intro hl
    have hl' : ¬ limit > 0 := by omega
    by_cases hns : ns = "" <;> simp [hns, hl']

theorem newDiscoverMessage_fields_witness :
    IsInt 5 ∧ (newDiscoverMessage "ns1" 5).Type_ = .DISCOVER :=
  ⟨by decide, (newDiscoverMessage_fields "ns1" 5 (by decide)).1⟩

/-- C6: whenever newRegisterMessage returns without error for a Go int ttl, the
sealing and the serialization of the peer record both succeeded and the result
is a REGISTER message whose Register payload has the namespace as given (unset
exactly when empty), the ttl when it is positive and 0 otherwise, and as Peer
the serialized sealed envelope. -/
theorem newRegisterMessage_fields (R : Library) (now : Int) (privKey : PrivKey) (ns : String)
    (pi : peer.AddrInfo) (ttl : Int) (hint : IsInt ttl)
    (hok : (newRegisterMessage R now privKey ns pi ttl).2 = none) :
    ∃ envelope envPayload,
      R.Seal { PeerID := pi.ID, Addrs := pi.Addrs, Seq := uint64 now } privKey = .ok envelope ∧
      R.Marshal envelope = .ok envPayload ∧
      (newRegisterMessage R now privKey ns pi ttl).1 =
        some { Type_ := .REGISTER,
               Register := some { Ns := ns,
                                  Peer := some (.bytes envPayload),
                                  Ttl := if 0 < ttl then ttl else 0 } } := by
  unfold newRegisterMessage at hok ⊢
  cases hseal : R.Seal { PeerID := pi.ID, Addrs := pi.Addrs, Seq := uint64 now } privKey with
  | error err => simp [hseal] at hok
  | ok envelope =>
    cases hmar : R.Marshal envelope with
    | error err => simp [hseal, hmar] at hok
    | ok envPayload =>
      refine ⟨envelope, envPayload, rfl, hmar, ?_⟩
      by_cases hns : ns = "" <;> by_cases hl : ttl > 0 <;>
        simp [hseal, hmar, hns, hl, int64_of_isInt ttl hint]

theorem newRegisterMessage_fields_witness :
    IsInt 7200 ∧
    (newRegisterMessage (specLibrary samplePrimitives) 7 sampleKey "ns" samplePeer 7200).2 = none ∧
    ∃ envelope envPayload,
      (specLibrary samplePrimitives).Seal
        { PeerID := samplePeer.ID, Addrs := samplePeer.Addrs, Seq := uint64 7 } sampleKey
          = .ok envelope ∧
      (specLibrary samplePrimitives).Marshal envelope = .ok envPayload ∧
      (newRegisterMessage (specLibrary samplePrimitives) 7 sampleKey "ns" samplePeer 7200).1 =
        some { Type_ := .REGISTER,
               Register := some { Ns := "ns",
                                  Peer := some (.bytes envPayload),
                                  Ttl := if (0 : Int) < 7200 then 7200 else 0 } } :=
  ⟨by decide, by decide,
    newRegisterMessage_fields (specLibrary samplePrimitives) 7 sampleKey "ns" samplePeer 7200
      (by decide) (by decide)⟩

/-- C9: if sealing the peer record fails, or serializing the sealed envelope
fails, newRegisterMessage returns that very error and no message; and it
returns a message exactly when it returns no error. -/
theorem newRegisterMessage_errors (R : Library) (now : Int) (privKey : PrivKey) (ns : String)
    (pi : peer.AddrInfo) (ttl : Int) :
    (∀ err, R.Seal { PeerID := pi.ID, Addrs := pi.Addrs, Seq := uint64 now } privKey = .error err →
      newRegisterMessage R now privKey ns pi ttl = (none, some (.lib err))) ∧
    (∀ envelope err,
      R.Seal { PeerID := pi.ID, Addrs := pi.Addrs, Seq := uint64 now } privKey = .ok envelope →
      R.Marshal envelope = .error err →
      newRegisterMessage R now privKey ns pi ttl = (none, some (.lib err))) ∧
    ((newRegisterMessage R now privKey ns pi ttl).1 ≠ none ↔
      (newRegisterMessage R now privKey ns pi ttl).2 = none) := by
  refine ⟨?_, ?_, ?_⟩
  · intro err hseal
    simp [newRegisterMessage, hseal]
  · intro envelope err hseal hmar
    simp [newRegisterMessage, hseal, hmar]
  · unfold newRegisterMessage
    cases hseal : R.Seal { PeerID := pi.ID, Addrs := pi.Addrs, Seq := uint64 now } privKey with
    | error err => simp [hseal]
    | ok envelope =>
      cases hmar : R.Marshal envelope with
      | error err => simp [hseal, hmar]
      | ok envPayload => simp [hseal, hmar]

theorem newRegisterMessage_errors_witness :
    newRegisterMessage failingLibrary 7 sampleKey "ns" samplePeer 60 =
      (none, some (.lib (.SigningError "no key"))) ∧
    newRegisterMessage (specLibrary samplePrimitives) 7 [] "ns" samplePeer 60 =
      (none, some (.lib (.SigningError "empty key"))) :=
  ⟨(newRegisterMessage_errors failingLibrary 7 sampleKey "ns" samplePeer 60).1 _ rfl,
   (newRegisterMessage_errors (specLibrary samplePrimitives) 7 [] "ns" samplePeer 60).1 _ rfl⟩

/-! ## Response builders -/

/-- C10: for every status code and every text, newRegisterResponseError returns
a response with that status, that text, and the TTL unset (0). -/
theorem newRegisterResponseError_fields (status : pb.Message_ResponseStatus) (text : String) :
    (newRegisterResponseError status text).Status = status ∧
    (newRegisterResponseError status text).StatusText = text ∧
    (newRegisterResponseError status text).Ttl = 0 :=
  ⟨rfl, rfl, rfl⟩

/-! ## Unsealing -/

/-- C4 as stated fails: an envelope with no content is not nil, and
pbToPeerRecord does not answer it with the missing-envelope error; over the
sample primitives it is rejected as malformed by the record package. -/
theorem pbToPeerRecord_empty_not_missing :
    pbToPeerRecord (specLibrary samplePrimitives) (some {}) =
        ({}, some (.lib (.MalformedEnvelope "empty public key"))) ∧
    pbToPeerRecord (specLibrary samplePrimitives) (some {}) ≠
        ({}, some (.new "missing envelope information")) := by
  constructor <;> decide

/-- C4, amended: pbToPeerRecord fails with the missing-envelope error exactly
when its input is nil, and then returns the zero AddrInfo; a non-nil envelope,
with or without content, is never answered with that error. -/
theorem pbToPeerRecord_missing_iff_nil (R : Library) (pbEnvelope : Option record_pb.Envelope) :
    ((pbToPeerRecord R pbEnvelope).2 = some (.new "missing envelope information") ↔
      pbEnvelope = none) ∧
    pbToPeerRecord R none = ({}, some (.new "missing envelope information")) := by
  refine ⟨?_, rfl⟩
  cases pbEnvelope with
  | none => simp [pbToPeerRecord]
  | some env =>
    simp only [pbToPeerRecord]
    cases hm : R.protoMarshal env with
    | error err => simp
    | ok envelopeBytes =>
      cases hc : R.ConsumeEnvelope envelopeBytes R.PeerRecordEnvelopeDomain with
      | error err => simp [hc]
      | ok p =>
        obtain ⟨e, rec⟩ := p
        cases rec <;> simp [hc]

/-! ## The discover response -/

theorem set_length_append (done rest : List (Option pb.Message_Register))
    (x y : Option pb.Message_Register) :
    (done ++ x :: rest).set done.length y = (done ++ [y]) ++ rest := by
  induction done with
  | nil => simp
  | cons d ds ih => simp [ih]

theorem loop_eq_parseAll (R : Library) (regs : List RegistrationRecord) :
    ∀ done : List (Option pb.Message_Register),
      newDiscoverResponse.loop R regs done.length (done ++ List.replicate regs.length none) =
        (match parseAll R regs with
         | .error err => .error err
         | .ok out => .ok (done ++ out.map some)) := by
  induction regs with
  | nil => intro done; simp [newDiscoverResponse.loop, parseAll]
  | cons reg rest ih =>
    intro done
    cases hU : R.Unmarshal reg.PeerEnvelope with
    | error err => simp [newDiscoverResponse.loop, parseAll, hU]
    | ok env =>
      have hstep := ih (done ++ [some (wireTriple reg env)])
      simp only [List.length_append, List.length_singleton] at hstep
      simp only [newDiscoverResponse.loop, parseAll, hU, List.length_cons, List.replicate_succ,
        set_length_append]
      rw [show (some { Ns := reg.Ns, Peer := some (.envelope env), Ttl := int64 reg.Ttl } :
          Option pb.Message_Register) = some (wireTriple reg env) from rfl, hstep]
      cases parseAll R rest with
      | error err => rfl
      | ok out => simp

theorem newDiscoverResponse_eq (R : Library) (regs : List RegistrationRecord) :
    newDiscoverResponse R regs =
      (match parseAll R regs with
       | .error err => (none, some (.lib err))
       | .ok out =>
         (some { Status := pb.Message_OK, Registrations := some (out.map some) }, none)) := by
  have h := loop_eq_parseAll R regs []
  simp only [List.length_nil, List.nil_append] at h
  simp only [newDiscoverResponse, h]
  cases parseAll R regs with
  | error err => rfl
  | ok out => rfl

theorem parseAll_spec (R : Library) (regs : List RegistrationRecord) :
    (∃ out, parseAll R regs = .ok out ∧ out.length = regs.length ∧
      (∀ reg ∈ regs, ∃ env, R.Unmarshal reg.PeerEnvelope = .ok env) ∧
      ∀ (i : Nat) (reg : RegistrationRecord), regs[i]? = some reg →
        ∃ env, R.Unmarshal reg.PeerEnvelope = .ok env ∧ out[i]? = some (wireTriple reg env)) ∨
    (∃ pre reg post e, regs = pre ++ reg :: post ∧
      (∀ r ∈ pre, ∃ env, R.Unmarshal r.PeerEnvelope = .ok env) ∧
      R.Unmarshal reg.PeerEnvelope = .error e ∧ parseAll R regs = .error e) := by
  induction regs with
  | nil => left; exact ⟨[], rfl, rfl, by simp, by simp⟩
  | cons reg rest ih =>
    cases hU : R.Unmarshal reg.PeerEnvelope with
    | error e =>
      right
      exact ⟨[], reg, rest, e, rfl, by simp, hU, by simp [parseAll, hU]⟩
    | ok env =>
      rcases ih with ⟨out, hout, hlen, hall, hidx⟩ | ⟨pre, r, post, e, hsplit, hpre, hr, hres⟩
      · left
        refine ⟨wireTriple reg env :: out, by simp [parseAll, hU, hout], by simp [hlen], ?_, ?_⟩
        · intro r hr
          rcases List.mem_cons.mp hr with rfl | hr
          · exact ⟨env, hU⟩
          · exact hall r hr
        · intro i r hi
          cases i with
          | zero =>
            simp only [List.getElem?_cons_zero, Option.some.injEq] at hi
            subst hi
            exact ⟨env, hU, by simp⟩
          | succ j =>
            simp only [List.getElem?_cons_succ] at hi
            obtain ⟨env', h1, h2⟩ := hidx j r hi
            exact ⟨env', h1, by simpa using h2⟩
      · right
        refine ⟨reg :: pre, r, post, e, by simp [hsplit], ?_, hr, by simp [parseAll, hU, hres]⟩
        intro r' hr'
        rcases List.mem_cons.mp hr' with rfl | hr'
        · exact ⟨env, hU⟩
        · exact hpre r' hr'

/-- C7: for every list of registration records (the empty list included) whose
envelope bytes all pass the structural parse and whose TTLs are Go ints,
newDiscoverResponse returns no error and a response with Status = OK whose
Registrations has the length of the input and whose i-th entry carries the
i-th record's namespace, its TTL, and the parse of its envelope bytes. -/
theorem newDiscoverResponse_ordered (R : Library) (regs : List RegistrationRecord)
    (hparse : ∀ reg ∈ regs, ∃ env, R.Unmarshal reg.PeerEnvelope = .ok env)
    (hint : ∀ reg ∈ regs, IsInt reg.Ttl) :
    ∃ r rregs, newDiscoverResponse R regs = (some r, none) ∧
      r.Status = pb.Message_OK ∧ r.Registrations = some rregs ∧
      rregs.length = regs.length ∧
      ∀ (i : Nat) (reg : RegistrationRecord), regs[i]? = some reg →
        ∃ env, R.Unmarshal reg.PeerEnvelope = .ok env ∧
          rregs[i]? = some (some { Ns := reg.Ns, Peer := some (.envelope env), Ttl := reg.Ttl }) := by
  rcases parseAll_spec R regs with ⟨out, hout, hlen, _, hidx⟩ | ⟨pre, r, post, e, hsplit, _, hr, _⟩
  · refine ⟨{ Status := pb.Message_OK, Registrations := some (out.map some) }, out.map some,
      ?_, rfl, rfl, by simp [hlen], ?_⟩
    · rw [newDiscoverResponse_eq, hout]
    · intro i reg hi
      obtain ⟨env, h1, h2⟩ := hidx i reg hi
      refine ⟨env, h1, ?_⟩
      have hmem : reg ∈ regs := List.getElem?_mem hi
      simp [h2, wireTriple, int64_of_isInt reg.Ttl (hint reg hmem)]
  · exfalso
    obtain ⟨env, henv⟩ := hparse r (by simp [hsplit])
    rw [hr] at henv
    cases henv

theorem newDiscoverResponse_ordered_witness :
    ∃ r rregs, newDiscoverResponse (specLibrary samplePrimitives) sampleRecords = (some r, none) ∧
      r.Status = pb.Message_OK ∧ r.Registrations = some rregs ∧
      rregs.length = sampleRecords.length ∧
      ∀ (i : Nat) (reg : RegistrationRecord), sampleRecords[i]? = some reg →
        ∃ env, (specLibrary samplePrimitives).Unmarshal reg.PeerEnvelope = .ok env ∧
          rregs[i]? = some (some { Ns := reg.Ns, Peer := some (.envelope env), Ttl := reg.Ttl }) :=
  newDiscoverResponse_ordered (specLibrary samplePrimitives) sampleRecords
    (by
      intro reg hreg
      simp only [sampleRecords, List.mem_cons, List.mem_singleton, List.not_mem_nil,
        or_false] at hreg
      rcases hreg with rfl | rfl
      · exact ⟨_, rfl⟩
      · exact ⟨_, rfl⟩)
    (by decide)

/-- C8: newDiscoverResponse returns an error exactly when some record's
envelope bytes fail the structural parse; the response is then nil and the
error is the parse error of the first failing record.  The outcome is a
function of the structural parse alone: no verification entry point of the
library has any influence on it. -/
theorem newDiscoverResponse_abort (R : Library) (regs : List RegistrationRecord) :
    ((newDiscoverResponse R regs).2 ≠ none ↔
      ∃ reg ∈ regs, ∃ e, R.Unmarshal reg.PeerEnvelope = .error e) ∧
    (∀ err, (newDiscoverResponse R regs).2 = some err →
      (newDiscoverResponse R regs).1 = none ∧
      ∃ pre reg post e, regs = pre ++ reg :: post ∧
        (∀ r ∈ pre, ∃ env, R.Unmarshal r.PeerEnvelope = .ok env) ∧
        R.Unmarshal reg.PeerEnvelope = .error e ∧ err = .lib e) ∧
    (∀ R2 : Library, R2.Unmarshal = R.Unmarshal →
      newDiscoverResponse R2 regs = newDiscoverResponse R regs) := by
  refine ⟨?_, ?_, ?_⟩
  · rcases parseAll_spec R regs with ⟨out, hout, _, hall, _⟩ | ⟨pre, r, post, e, hsplit, _, hr, hres⟩
    · rw [newDiscoverResponse_eq, hout]
      simp only [ne_eq, not_true_eq_false, false_iff, not_exists, not_and]
      intro reg hmem e he
      obtain ⟨env, henv⟩ := hall reg hmem
      rw [he] at henv
      cases henv
    · rw [newDiscoverResponse_eq, hres]
      simp only [ne_eq, reduceCtorEq, not_false_eq_true, true_iff]
      exact ⟨r, by simp [hsplit], e, hr⟩
  · intro err herr
    rcases parseAll_spec R regs with ⟨out, hout, _, _, _⟩ | ⟨pre, r, post, e, hsplit, hpre, hr, hres⟩
    · rw [newDiscoverResponse_eq, hout] at herr
      cases herr
    · rw [newDiscoverResponse_eq, hres] at herr ⊢
      simp only [Option.some.injEq] at herr
      exact ⟨rfl, pre, r, post, e, hsplit, hpre, hr, herr.symm⟩
  · intro R2 hU
    have hp : parseAll R2 regs = parseAll R regs := by
      induction regs with
      | nil => rfl
      | cons reg rest ih => simp [parseAll, hU, ih]
    rw [newDiscoverResponse_eq, newDiscoverResponse_eq, hp]

theorem newDiscoverResponse_abort_witness :
    (newDiscoverResponse (specLibrary samplePrimitives) corruptRecords).1 = none ∧
    ∃ pre reg post e, corruptRecords = pre ++ reg :: post ∧
      (∀ r ∈ pre, ∃ env, (specLibrary samplePrimitives).Unmarshal r.PeerEnvelope = .ok env) ∧
      (specLibrary samplePrimitives).Unmarshal reg.PeerEnvelope = .error e ∧
      Error.lib (.MalformedEnvelope "length mismatch") = .lib e :=
  (newDiscoverResponse_abort (specLibrary samplePrimitives) corruptRecords).2.1
    (.lib (.MalformedEnvelope "length mismatch")) (by decide)

/-! ## Sealing and unsealing over the primitives -/

theorem samplePrimitives_wireRoundTrip : samplePrimitives.WireRoundTrip := by
  intro e b hb
  simp only [samplePrimitives, sampleProtoMarshal] at hb
  split at hb
  · rename_i h
    simp only [Except.ok.injEq] at hb
    subst hb
    obtain ⟨pk, pt, pl, sg⟩ := e
    simp [samplePrimitives, sampleProtoUnmarshal, Nat.add_assoc]
  · cases hb

theorem samplePrimitives_keyRoundTrip (sk : PrivKey) (h : sk ≠ []) :
    samplePrimitives.KeyRoundTripAt sk := by
  intro k hk
  simp only [samplePrimitives, Except.ok.injEq] at hk
  subst hk
  simp [samplePrimitives, h]

theorem samplePrimitives_signVerify (sk : PrivKey) : samplePrimitives.SignVerifyAt sk := by
  intro m s hs
  simp only [samplePrimitives] at hs
  split at hs
  · cases hs
  · simp only [Except.ok.injEq] at hs
    subst hs
    simp [samplePrimitives]

theorem consume_sealed (P : Primitives) (rec : peer.PeerRecord) (sk : PrivKey)
    (envelope : record.Envelope) (b : Bytes)
    (hwire : P.WireRoundTrip) (hkey : P.KeyRoundTripAt sk) (hsv : P.SignVerifyAt sk)
    (hrec : P.RecordRoundTripAt rec)
    (hseal : record.Seal P rec sk = .ok envelope)
    (hmar : record.Envelope.Marshal P envelope = .ok b) :
    ∃ e, P.protoUnmarshal b = .ok e ∧ P.protoMarshal e = .ok b ∧
      record.ConsumeEnvelope P b P.PeerRecordEnvelopeDomain = .ok (envelope, .peerRecord rec) := by
  unfold record.Seal at hseal
  cases hpl : P.MarshalRecord rec with
  | error d => simp [hpl] at hseal
  | ok payload =>
    cases hsg : P.Sign sk
        (P.makeUnsigned P.PeerRecordEnvelopeDomain P.PeerRecordEnvelopePayloadType payload) with
    | error d => simp [hpl, hsg] at hseal
    | ok sig =>
      simp only [hpl, hsg, Except.ok.injEq] at hseal
      subst hseal
      unfold record.Envelope.Marshal at hmar
      cases hk : P.PublicKeyToProto (P.GetPublic sk) with
      | error d => simp [hk] at hmar
      | ok key =>
        simp only [hk] at hmar
        cases hw : P.protoMarshal
            { PublicKey := key, PayloadType := P.PeerRecordEnvelopePayloadType,
              Payload := payload, Signature := sig } with
        | error d => simp [hw] at hmar
        | ok b2 =>
          simp only [hw, Except.ok.injEq] at hmar
          subst hmar
          refine ⟨_, hwire _ _ hw, hw, ?_⟩
          simp [record.ConsumeEnvelope, hwire _ _ hw, hkey _ hk, hsv _ _ hsg, hrec _ hpl]

theorem newRegisterMessage_eq (R : Library) (now : Int) (privKey : PrivKey) (ns : String)
    (pi : peer.AddrInfo) (ttl : Int) :
    newRegisterMessage R now privKey ns pi ttl =
      (match R.Seal { PeerID := pi.ID, Addrs := pi.Addrs, Seq := uint64 now } privKey with
       | .error err => (none, some (.lib err))
       | .ok envelope =>
         match R.Marshal envelope with
         | .error err => (none, some (.lib err))
         | .ok envPayload =>
           (some { Type_ := .REGISTER,
                   Register := some { Ns := ns,
                                      Peer := some (.bytes envPayload),
                                      Ttl := if ttl > 0 then int64 ttl else 0 } }, none)) := by
  unfold newRegisterMessage
  cases hseal : R.Seal { PeerID := pi.ID, Addrs := pi.Addrs, Seq := uint64 now } privKey with
  | error err => simp [hseal]
  | ok envelope =>
    cases hmar : R.Marshal envelope with
    | error err => simp [hseal, hmar]
    | ok envPayload =>
      by_cases hns : ns = "" <;> by_cases hl : ttl > 0 <;> simp [hseal, hmar, hns, hl]

/-- C1 as stated fails: over the strict primitives, whose wire codec, key codec
and signatures are those of the sample instance, newRegisterMessage succeeds on
the zero AddrInfo and the bytes it stored in Peer parse to an envelope, yet
pbToPeerRecord fails on that envelope, because the record codec refuses the
empty PeerID when it reads the sealed record back. -/
theorem register_roundtrip_fails_on_zero_AddrInfo :
    newRegisterMessage (specLibrary strictPrimitives) 7 sampleKey "ns" {} 7200 =
      (some { Type_ := .REGISTER,
              Register := some { Ns := "ns",
                                 Peer := some (.bytes [2, 2, 2, 7, 42, 43, 3, 1, 7, 0,
                                                       42, 43, 18, 3, 1, 7, 0]),
                                 Ttl := 7200 } }, none) ∧
    (specLibrary strictPrimitives).Unmarshal
        [2, 2, 2, 7, 42, 43, 3, 1, 7, 0, 42, 43, 18, 3, 1, 7, 0] = .ok sealedZeroEnvelope ∧
    pbToPeerRecord (specLibrary strictPrimitives) (some sealedZeroEnvelope) =
      ({}, some (.lib (.MalformedEnvelope "multihash too short"))) ∧
    (pbToPeerRecord (specLibrary strictPrimitives) (some sealedZeroEnvelope)).2 ≠ none ∧
    strictPrimitives.WireRoundTrip ∧ strictPrimitives.KeyRoundTripAt sampleKey ∧
    strictPrimitives.SignVerifyAt sampleKey :=
  ⟨by decide, rfl, by decide, by decide, samplePrimitives_wireRoundTrip,
   samplePrimitives_keyRoundTrip sampleKey (by decide), samplePrimitives_signVerify sampleKey⟩

/-- C1, amended: over primitives whose wire codec and key codec read back what
they wrote and whose signatures verify under the signer's public key: whenever
newRegisterMessage succeeds and the record codec reads back the peer record
that was sealed, the bytes stored in msg.Register.Peer parse to an envelope,
and pbToPeerRecord on that envelope succeeds with an AddrInfo whose ID and
Addrs are those of the input. -/
theorem register_roundtrip (P : Primitives) (now : Int) (privKey : PrivKey) (ns : String)
    (pi : peer.AddrInfo) (ttl : Int)
    (hwire : P.WireRoundTrip) (hkey : P.KeyRoundTripAt privKey) (hsv : P.SignVerifyAt privKey)
    (hrec : P.RecordRoundTripAt { PeerID := pi.ID, Addrs := pi.Addrs, Seq := uint64 now })
    (hok : (newRegisterMessage (specLibrary P) now privKey ns pi ttl).2 = none) :
    ∃ msg reg b e,
      newRegisterMessage (specLibrary P) now privKey ns pi ttl = (some msg, none) ∧
      msg.Register = some reg ∧ reg.Peer = some (.bytes b) ∧
      (specLibrary P).Unmarshal b = .ok e ∧
      ∃ ai, pbToPeerRecord (specLibrary P) (some e) = (ai, none) ∧
        ai.ID = pi.ID ∧ ai.Addrs = pi.Addrs := by
  rw [newRegisterMessage_eq] at hok ⊢
  simp only [specLibrary] at hok ⊢
  cases hseal : record.Seal P { PeerID := pi.ID, Addrs := pi.Addrs, Seq := uint64 now } privKey with
  | error err => simp [hseal] at hok
  | ok envelope =>
    cases hmar : record.Envelope.Marshal P envelope with
    | error err => simp [hseal, hmar] at hok
    | ok b =>
      obtain ⟨e, hun, hre, hcons⟩ :=
        consume_sealed P _ privKey envelope b hwire hkey hsv hrec hseal hmar
      refine ⟨{ Type_ := .REGISTER,
                Register := some { Ns := ns, Peer := some (.bytes b),
                                   Ttl := if ttl > 0 then int64 ttl else 0 } },
              { Ns := ns, Peer := some (.bytes b), Ttl := if ttl > 0 then int64 ttl else 0 },
              b, e, by simp only [hmar], rfl, rfl, ?_, ?_⟩
      · simp [hun]
      · refine ⟨{ ID := pi.ID, Addrs := pi.Addrs }, ?_, rfl, rfl⟩
        simp [pbToPeerRecord, hre, hcons]

theorem register_roundtrip_witness :
    (newRegisterMessage (specLibrary samplePrimitives) 7 sampleKey "ns" samplePeer 7200).2 = none ∧
    ∃ msg reg b e,
      newRegisterMessage (specLibrary samplePrimitives) 7 sampleKey "ns" samplePeer 7200
        = (some msg, none) ∧
      msg.Register = some reg ∧ reg.Peer = some (.bytes b) ∧
      (specLibrary samplePrimitives).Unmarshal b = .ok e ∧
      ∃ ai, pbToPeerRecord (specLibrary samplePrimitives) (some e) = (ai, none) ∧
        ai.ID = samplePeer.ID ∧ ai.Addrs = samplePeer.Addrs :=
  ⟨by decide,
   register_roundtrip samplePrimitives 7 sampleKey "ns" samplePeer 7200
    samplePrimitives_wireRoundTrip
    (samplePrimitives_keyRoundTrip sampleKey (by decide))
    (samplePrimitives_signVerify sampleKey)
    (by
      intro b hb
      simp only [samplePrimitives, sampleMarshalRecord, Except.ok.injEq] at hb
      subst hb
      rfl)
    (by decide)⟩

/-- C2: for every non-nil envelope that the wire codec reads back from its own
serialization, if the embedded signature does not verify against the embedded
public key over the peer-record domain string and the payload bytes, then
pbToPeerRecord returns an error together with the zero AddrInfo. -/
theorem pbToPeerRecord_signature_gate (P : Primitives) (e : record_pb.Envelope)
    (hwire : P.WireRoundTripAt e) (hsig : ¬ SignatureVerifies P e) :
    ∃ err, pbToPeerRecord (specLibrary P) (some e) = ({}, some err) := by
  simp only [pbToPeerRecord, specLibrary]
  cases hm : P.protoMarshal e with
  | error d => exact ⟨_, rfl⟩
  | ok b =>
    simp only [record.ConsumeEnvelope, hwire b hm]
    cases hk : P.PublicKeyFromProto e.PublicKey with
    | error d => exact ⟨_, rfl⟩
    | ok key =>
      dsimp only
      cases hv : P.Verify key
          (P.makeUnsigned P.PeerRecordEnvelopeDomain e.PayloadType e.Payload) e.Signature with
      | error d => exact ⟨_, rfl⟩
      | ok verified =>
        cases verified with
        | false => exact ⟨_, rfl⟩
        | true => exact absurd ⟨key, hk, hv⟩ hsig

theorem pbToPeerRecord_signature_gate_witness :
    ∃ err, pbToPeerRecord (specLibrary samplePrimitives) (some forgedEnvelope) = ({}, some err) :=
  pbToPeerRecord_signature_gate samplePrimitives forgedEnvelope
    (samplePrimitives_wireRoundTrip forgedEnvelope)
    (by
      rintro ⟨key, hk, hv⟩
      simp only [samplePrimitives, forgedEnvelope] at hk hv
      have hkey : key = [42, 43] := by
        simp at hk
        exact hk.symm
      subst hkey
      simp at hv)

/-! ## Responses, payloads and the error string -/

/-- C11: for every Go int ttl, zero and negative values included,
newRegisterResponse returns a response with Status = OK, Ttl = ttl and an empty
StatusText. -/
theorem newRegisterResponse_fields (ttl : Int) (h : IsInt ttl) :
    (newRegisterResponse ttl).Status = pb.Message_OK ∧
    (newRegisterResponse ttl).Ttl = ttl ∧
    (newRegisterResponse ttl).StatusText = "" :=
  ⟨rfl, int64_of_isInt ttl h, rfl⟩

theorem newRegisterResponse_fields_witness :
    IsInt (-5) ∧ (newRegisterResponse (-5)).Status = pb.Message_OK ∧
    (newRegisterResponse (-5)).Ttl = -5 ∧ (newRegisterResponse (-5)).StatusText = "" :=
  ⟨by decide, newRegisterResponse_fields (-5) (by decide)⟩

/-- C12: for every status code and every text, newDiscoverResponseError returns
a response with that status, that text, and a nil registration sequence, whose
length is 0. -/
theorem newDiscoverResponseError_fields (status : pb.Message_ResponseStatus) (text : String) :
    (newDiscoverResponseError status text).Status = status ∧
    (newDiscoverResponseError status text).StatusText = text ∧
    (newDiscoverResponseError status text).Registrations = none ∧
    ((newDiscoverResponseError status text).Registrations.getD []).length = 0 :=
  ⟨rfl, rfl, rfl, rfl⟩

/-- C13 as stated fails: newRegisterResponseError accepts the status OK, and
the response then carries a non-empty status text together with the success
status. -/
theorem newRegisterResponseError_ok_with_text :
    (newRegisterResponseError pb.Message_OK "boom").StatusText ≠ "" ∧
    (newRegisterResponseError pb.Message_OK "boom").Status = pb.Message_OK := by
  decide

/-- C13, amended: a response of newRegisterResponse has status OK and an empty
status text; a response of newRegisterResponseError has the TTL unset, for
every status and text.  Hence the TTL is non-zero only when the status is OK,
for every argument of either builder, and the status text is non-empty only
when the status is not OK, for every argument of newRegisterResponse and every
argument of newRegisterResponseError whose status is not OK.  Given the status
OK, newRegisterResponseError returns it together with the text as passed. -/
theorem registerResponse_presence (ttl : Int) (status : pb.Message_ResponseStatus)
    (text : String) :
    ((newRegisterResponse ttl).Status = pb.Message_OK ∧
      (newRegisterResponse ttl).StatusText = "") ∧
    (newRegisterResponseError status text).Ttl = 0 ∧
    ((newRegisterResponse ttl).StatusText ≠ "" →
      (newRegisterResponse ttl).Status ≠ pb.Message_OK) ∧
    ((newRegisterResponse ttl).Ttl ≠ 0 → (newRegisterResponse ttl).Status = pb.Message_OK) ∧
    (status ≠ pb.Message_OK → (newRegisterResponseError status text).StatusText ≠ "" →
      (newRegisterResponseError status text).Status ≠ pb.Message_OK) ∧
    ((newRegisterResponseError status text).Ttl ≠ 0 →
      (newRegisterResponseError status text).Status = pb.Message_OK) ∧
    ((newRegisterResponseError pb.Message_OK text).Status = pb.Message_OK ∧
      (newRegisterResponseError pb.Message_OK text).StatusText = text ∧
      (newRegisterResponseError pb.Message_OK text).Ttl = 0) := by
  refine ⟨⟨rfl, rfl⟩, rfl, ?_, ?_, ?_, ?_, ⟨rfl, rfl, rfl⟩⟩
  · intro h; exact absurd rfl h
  · intro _; rfl
  · intro hs _; exact hs
  · intro h; exact absurd rfl h

theorem registerResponse_presence_witness :
    (100 : pb.Message_ResponseStatus) ≠ pb.Message_OK ∧
    ((newRegisterResponseError 100 "boom").StatusText ≠ "" →
      (newRegisterResponseError 100 "boom").Status ≠ pb.Message_OK) ∧
    ((newRegisterResponse 7200).Ttl ≠ 0 → (newRegisterResponse 7200).Status = pb.Message_OK) ∧
    (newRegisterResponseError pb.Message_OK "boom").Ttl = 0 :=
  ⟨by decide,
   (registerResponse_presence 7200 100 "boom").2.2.2.2.1 (by decide),
   (registerResponse_presence 7200 100 "boom").2.2.2.1,
   (registerResponse_presence 7200 pb.Message_OK "boom").2.1⟩

/-- C14: the message of newDiscoverMessage is tagged DISCOVER and has the
Discover payload and no other; a message returned without error by
newRegisterMessage is tagged REGISTER and has the Register payload and no
other. -/
theorem exactly_one_payload (R : Library) (now : Int) (privKey : PrivKey) (ns : String)
    (pi : peer.AddrInfo) (ttl : Int) (ns2 : String) (limit : Int) :
    ((newDiscoverMessage ns2 limit).Type_ = .DISCOVER ∧
      (newDiscoverMessage ns2 limit).Discover ≠ none ∧
      (newDiscoverMessage ns2 limit).Register = none ∧
      (newDiscoverMessage ns2 limit).RegisterResponse = none ∧
      (newDiscoverMessage ns2 limit).DiscoverResponse = none) ∧
    (∀ msg, newRegisterMessage R now privKey ns pi ttl = (some msg, none) →
      msg.Type_ = .REGISTER ∧ msg.Register ≠ none ∧ msg.Discover = none ∧
      msg.RegisterResponse = none ∧ msg.DiscoverResponse = none) := by
  refine ⟨⟨rfl, by simp [newDiscoverMessage], rfl, rfl, rfl⟩, ?_⟩
  intro msg hmsg
  rw [newRegisterMessage_eq] at hmsg
  cases hseal : R.Seal { PeerID := pi.ID, Addrs := pi.Addrs, Seq := uint64 now } privKey with
  | error err => simp [hseal] at hmsg
  | ok envelope =>
    cases hmar : R.Marshal envelope with
    | error err => simp [hseal, hmar] at hmsg
    | ok envPayload =>
      simp only [hseal, hmar, Prod.mk.injEq, Option.some.injEq, and_true] at hmsg
      subst hmsg
      exact ⟨rfl, by simp, rfl, rfl, rfl⟩

theorem exactly_one_payload_witness :
    ∃ msg, newRegisterMessage (specLibrary samplePrimitives) 7 sampleKey "ns" samplePeer 60
        = (some msg, none) ∧
      msg.Type_ = .REGISTER ∧ msg.Register ≠ none ∧ msg.Discover = none ∧
      msg.RegisterResponse = none ∧ msg.DiscoverResponse = none :=
  ⟨_, rfl,
    (exactly_one_payload (specLibrary samplePrimitives) 7 sampleKey "ns" samplePeer 60 "" 0).2
      _ rfl⟩

/-- C15: for every RendezvousError with status S and text t, Error returns
exactly "Rendezvous error: " followed by t, " (", the name of S, and ")". -/
theorem rendezvousError_string_form (statusName : pb.Message_ResponseStatus → String)
    (e : RendezvousError) :
    e.Error statusName = "Rendezvous error: " ++ e.Text ++ " (" ++ statusName e.Status ++ ")" := by
  have hscan : Sprintf.go "Rendezvous error: %s (%s)".data [e.Text, statusName e.Status] =
      "Rendezvous error: ".data ++
        (e.Text.data ++ (" (".data ++ ((statusName e.Status).data ++ ")".data))) := by
    rfl
  apply String.ext
  simp only [RendezvousError.Error, Sprintf, hscan, String.data_append, List.append_assoc]

/-! ## The unsealed record, the constant, and the integer fields -/

/-- C16: whenever pbToPeerRecord returns without error, its input is a non-nil
envelope whose serialization ConsumeEnvelope accepted under the peer-record
domain with a peer record, and the returned ID and Addrs are the PeerID and
Addrs of that record; when ConsumeEnvelope yields a record that is not a peer
record, pbToPeerRecord fails with "invalid peer record" and the zero AddrInfo. -/
theorem pbToPeerRecord_result (R : Library) (pbEnvelope : Option record_pb.Envelope) :
    (∀ ai, pbToPeerRecord R pbEnvelope = (ai, none) →
      ∃ env envelopeBytes e peerRec, pbEnvelope = some env ∧
        R.protoMarshal env = .ok envelopeBytes ∧
        R.ConsumeEnvelope envelopeBytes R.PeerRecordEnvelopeDomain = .ok (e, .peerRecord peerRec) ∧
        ai.ID = peerRec.PeerID ∧ ai.Addrs = peerRec.Addrs) ∧
    (∀ env envelopeBytes e payloadType, pbEnvelope = some env →
      R.protoMarshal env = .ok envelopeBytes →
      R.ConsumeEnvelope envelopeBytes R.PeerRecordEnvelopeDomain = .ok (e, .other payloadType) →
      pbToPeerRecord R pbEnvelope = ({}, some (.new "invalid peer record"))) := by
  constructor
  · intro ai hres
    cases pbEnvelope with
    | none => simp [pbToPeerRecord] at hres
    | some env =>
      simp only [pbToPeerRecord] at hres
      cases hm : R.protoMarshal env with
      | error err => simp [hm] at hres
      | ok envelopeBytes =>
        cases hc : R.ConsumeEnvelope envelopeBytes R.PeerRecordEnvelopeDomain with
        | error err => simp [hm, hc] at hres
        | ok p =>
          obtain ⟨e, rec⟩ := p
          cases rec with
          | other t => simp [hm, hc] at hres
          | peerRecord peerRec =>
            simp only [hm, hc, Prod.mk.injEq, and_true] at hres
            subst hres
            exact ⟨env, envelopeBytes, e, peerRec, rfl, hm, hc, rfl, rfl⟩
  · intro env envelopeBytes e payloadType henv hm hc
    subst henv
    simp [pbToPeerRecord, hm, hc]

theorem pbToPeerRecord_result_witness :
    (∃ env envelopeBytes e peerRec, some sealedEnvelope = some env ∧
      (specLibrary samplePrimitives).protoMarshal env = .ok envelopeBytes ∧
      (specLibrary samplePrimitives).ConsumeEnvelope envelopeBytes
        (specLibrary samplePrimitives).PeerRecordEnvelopeDomain = .ok (e, .peerRecord peerRec) ∧
      samplePeer.ID = peerRec.PeerID ∧ samplePeer.Addrs = peerRec.Addrs) ∧
    pbToPeerRecord (specLibrary samplePrimitives) (some otherRecordEnvelope) =
      ({}, some (.new "invalid peer record")) :=
  ⟨(pbToPeerRecord_result (specLibrary samplePrimitives) (some sealedEnvelope)).1
      samplePeer (by decide),
   (pbToPeerRecord_result (specLibrary samplePrimitives) (some otherRecordEnvelope)).2
      otherRecordEnvelope _ _ [9] rfl rfl rfl⟩

/-- C17: the constant DefaultTTL is 2 hours in seconds, 2 * 3600 = 7200. -/
theorem defaultTTL_value : DefaultTTL = 2 * 3600 ∧ DefaultTTL = 7200 := by
  decide

/-- C18: there is one peer record, with PeerID and Addrs those of the input
AddrInfo and Seq the clock value converted to an unsigned 64-bit integer (the
clock value itself when it is not negative), such that, whatever the library,
newRegisterMessage seals exactly that record and builds its result from the
outcome. -/
theorem newRegisterMessage_sealed_record (now : Int) (privKey : PrivKey) (ns : String)
    (pi : peer.AddrInfo) (ttl : Int) (hnow : IsInt now) :
    ∃ rec : peer.PeerRecord,
      rec.PeerID = pi.ID ∧ rec.Addrs = pi.Addrs ∧ rec.Seq = uint64 now ∧
      (0 ≤ now → (rec.Seq : Int) = now) ∧
      ∀ R : Library, newRegisterMessage R now privKey ns pi ttl =
        (match R.Seal rec privKey with
         | .error err => (none, some (.lib err))
         | .ok envelope =>
           match R.Marshal envelope with
           | .error err => (none, some (.lib err))
           | .ok envPayload =>
             (some { Type_ := .REGISTER,
                     Register := some { Ns := ns,
                                        Peer := some (.bytes envPayload),
                                        Ttl := if ttl > 0 then int64 ttl else 0 } }, none)) := by
  refine ⟨{ PeerID := pi.ID, Addrs := pi.Addrs, Seq := uint64 now }, rfl, rfl, rfl, ?_, ?_⟩
  · intro h0
    unfold IsInt at hnow
    simp only [uint64]
    omega
  · intro R
    exact newRegisterMessage_eq R now privKey ns pi ttl

theorem newRegisterMessage_sealed_record_witness :
    IsInt 1700000000 ∧
    ∃ rec : peer.PeerRecord,
      rec.PeerID = samplePeer.ID ∧ rec.Addrs = samplePeer.Addrs ∧ rec.Seq = uint64 1700000000 ∧
      ((0 : Int) ≤ 1700000000 → (rec.Seq : Int) = 1700000000) ∧
      ∀ R : Library, newRegisterMessage R 1700000000 sampleKey "ns" samplePeer 60 =
        (match R.Seal rec sampleKey with
         | .error err => (none, some (.lib err))
         | .ok envelope =>
           match R.Marshal envelope with
           | .error err => (none, some (.lib err))
           | .ok envPayload =>
             (some { Type_ := .REGISTER,
                     Register := some { Ns := "ns",
                                        Peer := some (.bytes envPayload),
                                        Ttl := if (60 : Int) > 0 then int64 60 else 0 } }, none)) :=
  ⟨by decide, newRegisterMessage_sealed_record 1700000000 sampleKey "ns" samplePeer 60 (by decide)⟩

/-- C19: the conversions to the wire's signed 64-bit fields keep the value: for
Go ints, a positive ttl is the Ttl of the register message, a positive limit is
the Limit of the discover message, any ttl is the Ttl of the register response,
and every entry of a discover response has the TTL of its record. -/
theorem width_conversions_lossless (R : Library) (now : Int) (privKey : PrivKey) (ns : String)
    (pi : peer.AddrInfo) (ttl limit : Int) (regs : List RegistrationRecord)
    (httl : IsInt ttl) (hlimit : IsInt limit) (hregs : ∀ reg ∈ regs, IsInt reg.Ttl) :
    (0 < ttl → ∀ msg reg, newRegisterMessage R now privKey ns pi ttl = (some msg, none) →
      msg.Register = some reg → reg.Ttl = ttl) ∧
    (0 < limit → ∀ d, (newDiscoverMessage ns limit).Discover = some d → d.Limit = limit) ∧
    (newRegisterResponse ttl).Ttl = ttl ∧
    (∀ r rregs, newDiscoverResponse R regs = (some r, none) → r.Registrations = some rregs →
      ∀ (i : Nat) (reg : RegistrationRecord) (rreg : pb.Message_Register),
        regs[i]? = some reg → rregs[i]? = some (some rreg) → rreg.Ttl = reg.Ttl) := by
  refine ⟨?_, ?_, int64_of_isInt ttl httl, ?_⟩
  · intro hpos msg reg hmsg hreg
    rw [newRegisterMessage_eq] at hmsg
    cases hseal : R.Seal { PeerID := pi.ID, Addrs := pi.Addrs, Seq := uint64 now } privKey with
    | error err => simp [hseal] at hmsg
    | ok envelope =>
      cases hmar : R.Marshal envelope with
      | error err => simp [hseal, hmar] at hmsg
      | ok envPayload =>
        simp only [hseal, hmar, Prod.mk.injEq, Option.some.injEq, and_true] at hmsg
        subst hmsg
        simp only [Option.some.injEq] at hreg
        subst hreg
        simp [hpos, int64_of_isInt ttl httl]
  · intro hpos d hd
    have hgt : limit > 0 := hpos
    by_cases hns : ns = "" <;>
      simp only [newDiscoverMessage, hns, hgt, Option.some.injEq] at hd <;>
      subst hd <;> simp [int64_of_isInt limit hlimit]
  · intro r rregs hres hrr i reg rreg hi hj
    rw [newDiscoverResponse_eq] at hres
    rcases parseAll_spec R regs with ⟨out, hout, _, _, hidx⟩ | ⟨_, _, _, _, _, _, _, herr⟩
    · simp only [hout, Prod.mk.injEq, Option.some.injEq, and_true] at hres
      subst hres
      simp only [Option.some.injEq] at hrr
      subst hrr
      obtain ⟨env, _, hout_i⟩ := hidx i reg hi
      simp only [List.getElem?_map, hout_i, Option.map_some', Option.some.injEq] at hj
      subst hj
      simp [wireTriple, int64_of_isInt reg.Ttl (hregs reg (List.getElem?_mem hi))]
    · simp [herr] at hres

theorem width_conversions_lossless_witness :
    IsInt 7200 ∧ IsInt 5 ∧ (∀ reg ∈ sampleRecords, IsInt reg.Ttl) ∧
    (newRegisterResponse 7200).Ttl = 7200 ∧
    ((0 : Int) < 5 → ∀ d, (newDiscoverMessage "ns" 5).Discover = some d → d.Limit = 5) :=
  ⟨by decide, by decide, by decide,
   (width_conversions_lossless (specLibrary samplePrimitives) 7 sampleKey "ns" samplePeer
      7200 5 sampleRecords (by decide) (by decide) (by decide)).2.2.1,
   (width_conversions_lossless (specLibrary samplePrimitives) 7 sampleKey "ns" samplePeer
      7200 5 sampleRecords (by decide) (by decide) (by decide)).2.1⟩

/-- C20: a limit that is not positive gives the discover message that limit 0
gives, and a ttl that is not positive gives, for the same library, clock
value, key, namespace and AddrInfo, the result that ttl 0 gives. -/
theorem nonpositive_as_unspecified (R : Library) (now : Int) (privKey : PrivKey) (ns : String)
    (pi : peer.AddrInfo) (ttl limit : Int) (httl : ttl ≤ 0) (hlimit : limit ≤ 0) :
    newDiscoverMessage ns limit = newDiscoverMessage ns 0 ∧
    newRegisterMessage R now privKey ns pi ttl = newRegisterMessage R now privKey ns pi 0 := by
  have h1 : ¬ limit > 0 := by omega
  have h2 : ¬ ttl > 0 := by omega
  constructor
  · simp [newDiscoverMessage, h1]
  · rw [newRegisterMessage_eq, newRegisterMessage_eq]
    simp [h2]

theorem nonpositive_as_unspecified_witness :
    (-3 : Int) ≤ 0 ∧ (-9 : Int) ≤ 0 ∧
    newDiscoverMessage "ns" (-9) = newDiscoverMessage "ns" 0 ∧
    newRegisterMessage (specLibrary samplePrimitives) 7 sampleKey "ns" samplePeer (-3) =
      newRegisterMessage (specLibrary samplePrimitives) 7 sampleKey "ns" samplePeer 0 :=
  ⟨by decide, by decide,
   nonpositive_as_unspecified (specLibrary samplePrimitives) 7 sampleKey "ns" samplePeer
     (-3) (-9) (by decide) (by decide)⟩

end rendezvous
